import Mathlib

/-!
Verification of the magic-monitor smart-zoom / replay-buffer core.

Shallow embedding of the relevant source code:
* `clampNormalizedPan`, the hysteresis gate, the bounding-box / raw-target
  computation and the per-tick publish step come from the smart-zoom hook
  (source file exporting `useSmartZoom`, lines 57-80, 211-293, 326-390).
* `pruneOldChunks` and `exportVideo` come from the `DiskBufferService`
  IndexedDB wrapper.
* `nextChunkIndex` / `prevChunkIndex` / the auto-advance handler and the
  capture-ready polling loop come from `src/hooks/useDiskTimeMachine.ts`.

JavaScript numbers are embedded as exact rationals; the store is embedded
as the timestamp-sorted list that `getAllChunks` returns.
-/

namespace MagicMonitor

/-- Two-dimensional pan vector, the `{x, y}` object of the source. -/
@[ext]
structure Vec2 where
  x : ℚ
  y : ℚ
  deriving DecidableEq, Repr

/-- Clamped-edges indicator returned by the viewport clamp
(source interface `ClampedEdges`). -/
structure ClampedEdges where
  left : Bool
  right : Bool
  top : Bool
  bottom : Bool
  deriving DecidableEq, Repr

/-- Result record of `clampNormalizedPan`. -/
structure ClampResult where
  pan : Vec2
  clampedEdges : ClampedEdges
  deriving DecidableEq, Repr

/-- Viewport clamp (source `clampNormalizedPan`, smart-zoom hook lines 57-80):
`maxPan = (1 - 1/zoom) / 2`; each pan component is clamped to
`[-maxPan, maxPan]` via `Math.min(Math.max(v, -maxPan), maxPan)` and the edge
booleans compare the INPUT pan against the bound. -/
def clampNormalizedPan (pan : Vec2) (zoom : ℚ) : ClampResult :=
  let maxPan : ℚ := (1 - 1 / zoom) / 2
  let clampedEdges : ClampedEdges :=
    { left := decide (pan.x ≥ maxPan)
      right := decide (pan.x ≤ -maxPan)
      top := decide (pan.y ≥ maxPan)
      bottom := decide (pan.y ≤ -maxPan) }
  let clampedPan : Vec2 :=
    { x := min (max pan.x (-maxPan)) maxPan
      y := min (max pan.y (-maxPan)) maxPan }
  { pan := clampedPan, clampedEdges := clampedEdges }

/-- The pan bound used by the viewport clamp. -/
def maxPanFor (zoom : ℚ) : ℚ := (1 - 1 / zoom) / 2

lemma maxPanFor_nonneg {zoom : ℚ} (h : 1 ≤ zoom) : 0 ≤ maxPanFor zoom := by
  have hz : (0:ℚ) < zoom := lt_of_lt_of_le one_pos h
  have : 1 / zoom ≤ 1 := by
    rw [div_le_one hz]; exact h
  unfold maxPanFor
  linarith

lemma abs_clamp_le {x m : ℚ} (hm : 0 ≤ m) : |min (max x (-m)) m| ≤ m := by
  rw [abs_le]
  constructor
  · exact le_min (le_max_right x (-m)) (neg_le_self hm)
  · exact min_le_right _ _

lemma clamp_mem_of_le {x m : ℚ} (h : |x| ≤ m) : min (max x (-m)) m = x := by
  rw [abs_le] at h
  rw [max_eq_left h.1, min_eq_left h.2]

lemma clampNormalizedPan_pan_x (pan : Vec2) (zoom : ℚ) :
    (clampNormalizedPan pan zoom).pan.x
      = min (max pan.x (-maxPanFor zoom)) (maxPanFor zoom) := rfl

lemma clampNormalizedPan_pan_y (pan : Vec2) (zoom : ℚ) :
    (clampNormalizedPan pan zoom).pan.y
      = min (max pan.y (-maxPanFor zoom)) (maxPanFor zoom) := rfl

/-- C1: for every zoom in `[1,3]` the clamped pan satisfies
`|pan.x| ≤ (1 - 1/zoom)/2` (same for y); at `zoom = 1` the clamped pan is
exactly `(0,0)`; the clamped-edges booleans are exactly the comparisons of
the input pan against `maxPan = (1 - 1/zoom)/2`; and at zoom 2 the input pan
`(0.4, -0.3)` is clamped to `(0.25, -0.25)` with edges
`{left, bottom}` set and `{right, top}` clear. -/
theorem clampNormalizedPan_correct (zoom : ℚ) (pan : Vec2)
    (h1 : 1 ≤ zoom) (h2 : zoom ≤ 3) :
    |(clampNormalizedPan pan zoom).pan.x| ≤ (1 - 1 / zoom) / 2 ∧
    |(clampNormalizedPan pan zoom).pan.y| ≤ (1 - 1 / zoom) / 2 ∧
    (zoom = 1 → (clampNormalizedPan pan zoom).pan = ⟨0, 0⟩) ∧
    ((clampNormalizedPan pan zoom).clampedEdges.left = true ↔
      (1 - 1 / zoom) / 2 ≤ pan.x) ∧
    ((clampNormalizedPan pan zoom).clampedEdges.right = true ↔
      pan.x ≤ -((1 - 1 / zoom) / 2)) ∧
    ((clampNormalizedPan pan zoom).clampedEdges.top = true ↔
      (1 - 1 / zoom) / 2 ≤ pan.y) ∧
    ((clampNormalizedPan pan zoom).clampedEdges.bottom = true ↔
      pan.y ≤ -((1 - 1 / zoom) / 2)) ∧
    clampNormalizedPan ⟨2/5, -(3/10)⟩ 2 =
      ⟨⟨1/4, -(1/4)⟩, ⟨true, false, false, true⟩⟩ := by
  have hm : 0 ≤ maxPanFor zoom := maxPanFor_nonneg h1
  refine ⟨?_, ?_, ?_, ?_, ?_, ?_, ?_, ?_⟩
  · rw [clampNormalizedPan_pan_x]
    exact abs_clamp_le hm
  · rw [clampNormalizedPan_pan_y]
    exact abs_clamp_le hm
  · intro hz
    subst hz
    have hpx := clampNormalizedPan_pan_x pan 1
    have hpy := clampNormalizedPan_pan_y pan 1
    have hm0 : maxPanFor 1 = 0 := by norm_num [maxPanFor]
    rw [hm0] at hpx hpy
    simp only [neg_zero] at hpx hpy
    have hx : (clampNormalizedPan pan 1).pan.x = 0 := by
      rw [hpx, min_eq_right (le_max_right pan.x 0)]
    have hy : (clampNormalizedPan pan 1).pan.y = 0 := by
      rw [hpy, min_eq_right (le_max_right pan.y 0)]
    cases h : (clampNormalizedPan pan 1).pan
    simp_all
  · simp [clampNormalizedPan, ge_iff_le]
  · simp [clampNormalizedPan]
  · simp [clampNormalizedPan, ge_iff_le]
  · simp [clampNormalizedPan]
  · norm_num [clampNormalizedPan, min_def, max_def]

/-- Concrete instantiation of `clampNormalizedPan_correct` at zoom 2. -/
theorem clampNormalizedPan_correct_witness :
    |(clampNormalizedPan ⟨2/5, -(3/10)⟩ 2).pan.x| ≤ (1 - 1 / 2) / 2 :=
  (clampNormalizedPan_correct 2 ⟨2/5, -(3/10)⟩ (by norm_num) (by norm_num)).1

/-- C9 counterexample: whole-RESULT idempotence fails. At `zoom = 1` the first
clamp maps pan `(0.4, -0.3)` to `(0, 0)` and reports `right = false`; clamping
the already-clamped pan `(0, 0)` again reports `right = true` (since
`0 ≤ -maxPan = 0`), so the two results differ in `clampedEdges`. -/
theorem clampNormalizedPan_result_not_idempotent :
    clampNormalizedPan (clampNormalizedPan ⟨2/5, -(3/10)⟩ 1).pan 1 ≠
      clampNormalizedPan ⟨2/5, -(3/10)⟩ 1 := by
  norm_num [clampNormalizedPan, min_def, max_def]

/-- C9 (amended): the PAN component of the viewport clamp is idempotent for
every zoom at least 1 - re-clamping the clamped pan returns it unchanged -
and clamping an already-in-bounds pan is the identity on the pan. (The
`clampedEdges` component is not idempotent at zoom 1, see the
counterexample.) -/
theorem clampNormalizedPan_pan_idempotent (pan : Vec2) (zoom : ℚ)
    (h : 1 ≤ zoom) :
    (clampNormalizedPan (clampNormalizedPan pan zoom).pan zoom).pan =
      (clampNormalizedPan pan zoom).pan ∧
    (|pan.x| ≤ (1 - 1 / zoom) / 2 → |pan.y| ≤ (1 - 1 / zoom) / 2 →
      (clampNormalizedPan pan zoom).pan = pan) := by
  have hm : 0 ≤ maxPanFor zoom := maxPanFor_nonneg h
  constructor
  · ext
    · rw [clampNormalizedPan_pan_x, clampNormalizedPan_pan_x]
      exact clamp_mem_of_le (abs_clamp_le hm)
    · rw [clampNormalizedPan_pan_y, clampNormalizedPan_pan_y]
      exact clamp_mem_of_le (abs_clamp_le hm)
  · intro hx hy
    ext
    · rw [clampNormalizedPan_pan_x]
      exact clamp_mem_of_le hx
    · rw [clampNormalizedPan_pan_y]
      exact clamp_mem_of_le hy

/-- Concrete instantiation of `clampNormalizedPan_pan_idempotent` at zoom 2. -/
theorem clampNormalizedPan_pan_idempotent_witness :
    (clampNormalizedPan (clampNormalizedPan ⟨2/5, -(3/10)⟩ 2).pan 2).pan =
      (clampNormalizedPan ⟨2/5, -(3/10)⟩ 2).pan :=
  (clampNormalizedPan_pan_idempotent ⟨2/5, -(3/10)⟩ 2 (by norm_num)).1

/-! ### Hysteresis gate (smart-zoom hook lines 249-265) -/

/-- Zoom deadband threshold (source constant `ZOOM_THRESHOLD = 0.1`). -/
def ZOOM_THRESHOLD : ℚ := 1 / 10

/-- Pan deadband threshold in normalized units
(source constant `PAN_THRESHOLD = 0.025`). -/
def PAN_THRESHOLD : ℚ := 1 / 40

/-- Frame target: a zoom level together with a normalized pan
(the `committedTargetRef` contents of the source). -/
structure FrameTarget where
  zoom : ℚ
  pan : Vec2
  deriving DecidableEq, Repr

/-- Hysteresis / deadband step (smart-zoom hook lines 249-265): the committed
target is replaced by the raw target exactly when the zoom delta exceeds
`ZOOM_THRESHOLD` or the pan moved by more than `PAN_THRESHOLD`. The source
computes `panDist = Math.sqrt(dx ** 2 + dy ** 2)` and tests
`panDist > PAN_THRESHOLD`; both sides being nonnegative, that test is
equivalent to `dx ** 2 + dy ** 2 > PAN_THRESHOLD ^ 2`, which is the
rational-exact form used here. -/
def hysteresisStep (committed : FrameTarget) (targetZoom : ℚ)
    (targetPan : Vec2) : FrameTarget :=
  let zoomDelta := |targetZoom - committed.zoom|
  let panDistSq := (targetPan.x - committed.pan.x) ^ 2 +
    (targetPan.y - committed.pan.y) ^ 2
  if zoomDelta > ZOOM_THRESHOLD ∨ panDistSq > PAN_THRESHOLD ^ 2 then
    ⟨targetZoom, targetPan⟩
  else committed

/-- C3: the hysteresis gate commits exactly the raw target when the zoom
delta exceeds 0.1 or the euclidean pan distance exceeds 0.025 (stated via
its square, `(1/40)^2 = 1/1600`), and leaves the committed target completely
unchanged otherwise. -/
theorem hysteresisStep_correct (committed : FrameTarget) (targetZoom : ℚ)
    (targetPan : Vec2) :
    ((|targetZoom - committed.zoom| > 1 / 10 ∨
        (targetPan.x - committed.pan.x) ^ 2 +
          (targetPan.y - committed.pan.y) ^ 2 > (1 / 40) ^ 2) →
      hysteresisStep committed targetZoom targetPan = ⟨targetZoom, targetPan⟩) ∧
    (¬(|targetZoom - committed.zoom| > 1 / 10 ∨
        (targetPan.x - committed.pan.x) ^ 2 +
          (targetPan.y - committed.pan.y) ^ 2 > (1 / 40) ^ 2) →
      hysteresisStep committed targetZoom targetPan = committed) := by
  constructor
  · intro h
    rw [hysteresisStep, if_pos]
    simpa [ZOOM_THRESHOLD, PAN_THRESHOLD] using h
  · intro h
    rw [hysteresisStep, if_neg]
    simpa [ZOOM_THRESHOLD, PAN_THRESHOLD] using h

/-- Concrete instantiation of `hysteresisStep_correct`: a zoom jump from 1 to
2 commits the raw target. -/
theorem hysteresisStep_correct_witness :
    hysteresisStep ⟨1, ⟨0, 0⟩⟩ 2 ⟨0, 0⟩ = ⟨2, ⟨0, 0⟩⟩ :=
  (hysteresisStep_correct ⟨1, ⟨0, 0⟩⟩ 2 ⟨0, 0⟩).1 (by norm_num)

/-! ### Speed clamp and the per-tick publish step -/

/-- Motion state `{x, y, zoom}`: the shape of `prevPositionRef.current` and
of the smoother output in the source. -/
structure MotionState where
  x : ℚ
  y : ℚ
  zoom : ℚ
  deriving DecidableEq, Repr

/-- Modelled from the spec: the smoothing module (source import
`../smoothing`, exporting `clampSpeed`, `createSmoother` and
`DEFAULT_SPEED_CLAMP`) is not among the available source files. Per spec
section 4.4, `clampSpeed(prev, next, maxPanSpeed, maxZoomSpeed)` limits the
per-step change of each channel to the given maximum rate, preserving
direction (it clamps the magnitude of the delta, not its sign). -/
def clampSpeed (prev next : MotionState) (maxPanSpeed maxZoomSpeed : ℚ) :
    MotionState where
  x := prev.x + min (max (next.x - prev.x) (-maxPanSpeed)) maxPanSpeed
  y := prev.y + min (max (next.y - prev.y) (-maxPanSpeed)) maxPanSpeed
  zoom := prev.zoom +
    min (max (next.zoom - prev.zoom) (-maxZoomSpeed)) maxZoomSpeed

/-- Output published by one detection tick: the values passed to `setZoom`,
`setPan` and `setClampedEdges`. -/
structure PublishedOutput where
  zoom : ℚ
  pan : Vec2
  clampedEdges : ClampedEdges
  deriving DecidableEq, Repr

/-- Tail of one detection tick, common to the hands-detected branch
(smart-zoom hook lines 275-324, full speed limits) and the no-hands branch
(lines 339-388, half speed limits): speed-clamp the smoothed value against
the previous output, viewport-clamp the resulting pan at the speed-clamped
zoom, store `{x, y, zoom}` as `prevPositionRef.current`, and publish zoom,
pan and clamped edges from exactly that stored state. The smoothed value is
a parameter, covering whatever the smoother returned in either branch. -/
def publishTick (prev smoothed : MotionState)
    (maxPanSpeed maxZoomSpeed : ℚ) : PublishedOutput × MotionState :=
  let speedClamped := clampSpeed prev smoothed maxPanSpeed maxZoomSpeed
  let r := clampNormalizedPan ⟨speedClamped.x, speedClamped.y⟩
    speedClamped.zoom
  let newPrev : MotionState := ⟨r.pan.x, r.pan.y, speedClamped.zoom⟩
  (⟨newPrev.zoom, ⟨newPrev.x, newPrev.y⟩, r.clampedEdges⟩, newPrev)

lemma clampSpeed_zoom_ge_one (prev next : MotionState) (mp mz : ℚ)
    (hp : 1 ≤ prev.zoom) (hn : 1 ≤ next.zoom) (hz : 0 ≤ mz) :
    1 ≤ (clampSpeed prev next mp mz).zoom := by
  show 1 ≤ prev.zoom + min (max (next.zoom - prev.zoom) (-mz)) mz
  rcases le_total 0 (next.zoom - prev.zoom) with h | h
  · have h1 : 0 ≤ max (next.zoom - prev.zoom) (-mz) :=
      le_trans h (le_max_left _ _)
    have h2 : 0 ≤ min (max (next.zoom - prev.zoom) (-mz)) mz := le_min h1 hz
    linarith
  · have h1 : next.zoom - prev.zoom ≤ max (next.zoom - prev.zoom) (-mz) :=
      le_max_left _ _
    have h2 : next.zoom - prev.zoom ≤ mz := by linarith
    have h3 : next.zoom - prev.zoom ≤
        min (max (next.zoom - prev.zoom) (-mz)) mz := le_min h1 h2
    linarith

/-- C2: on every detection tick (hands or no hands), the published zoom is
the speed-clamped zoom, the published pan is the viewport-clamp of the
speed-clamped pan at that zoom, the published output satisfies the
viewport-coverage invariant `|pan| ≤ (1 - 1/zoom)/2` on both axes, and the
stored previous output for the next tick is exactly the published
`{zoom, pan}` pair. -/
theorem publishTick_invariant (prev smoothed : MotionState)
    (maxPanSpeed maxZoomSpeed : ℚ)
    (hp : 1 ≤ prev.zoom) (hs : 1 ≤ smoothed.zoom) (hz : 0 ≤ maxZoomSpeed) :
    (publishTick prev smoothed maxPanSpeed maxZoomSpeed).1.zoom =
      (clampSpeed prev smoothed maxPanSpeed maxZoomSpeed).zoom ∧
    (publishTick prev smoothed maxPanSpeed maxZoomSpeed).1.pan =
      (clampNormalizedPan
        ⟨(clampSpeed prev smoothed maxPanSpeed maxZoomSpeed).x,
         (clampSpeed prev smoothed maxPanSpeed maxZoomSpeed).y⟩
        (clampSpeed prev smoothed maxPanSpeed maxZoomSpeed).zoom).pan ∧
    1 ≤ (publishTick prev smoothed maxPanSpeed maxZoomSpeed).1.zoom ∧
    |(publishTick prev smoothed maxPanSpeed maxZoomSpeed).1.pan.x| ≤
      (1 - 1 / (publishTick prev smoothed maxPanSpeed maxZoomSpeed).1.zoom)
        / 2 ∧
    |(publishTick prev smoothed maxPanSpeed maxZoomSpeed).1.pan.y| ≤
      (1 - 1 / (publishTick prev smoothed maxPanSpeed maxZoomSpeed).1.zoom)
        / 2 ∧
    (publishTick prev smoothed maxPanSpeed maxZoomSpeed).2 =
      ⟨(publishTick prev smoothed maxPanSpeed maxZoomSpeed).1.pan.x,
       (publishTick prev smoothed maxPanSpeed maxZoomSpeed).1.pan.y,
       (publishTick prev smoothed maxPanSpeed maxZoomSpeed).1.zoom⟩ := by
  have hzm : 1 ≤ (clampSpeed prev smoothed maxPanSpeed maxZoomSpeed).zoom :=
    clampSpeed_zoom_ge_one prev smoothed maxPanSpeed maxZoomSpeed hp hs hz
  have hm : 0 ≤
      maxPanFor (clampSpeed prev smoothed maxPanSpeed maxZoomSpeed).zoom :=
    maxPanFor_nonneg hzm
  exact ⟨rfl, rfl, hzm, abs_clamp_le hm, abs_clamp_le hm, rfl⟩

/-- Concrete instantiation of `publishTick_invariant`. -/
theorem publishTick_invariant_witness :
    1 ≤ (publishTick ⟨0, 0, 1⟩ ⟨1/2, 0, 2⟩ (1/8) (1/10)).1.zoom :=
  (publishTick_invariant ⟨0, 0, 1⟩ ⟨1/2, 0, 2⟩ (1/8) (1/10)
    (by norm_num) (by norm_num) (by norm_num)).2.2.1

/-! ### Bounding box and raw frame target (smart-zoom hook lines 211-247) -/

/-- Hand landmark point from MediaPipe (source interface `HandLandmark`). -/
structure HandLandmark where
  x : ℚ
  y : ℚ
  z : ℚ
  deriving DecidableEq, Repr

/-- Bounding-box accumulator `{minX, minY, maxX, maxY}`. -/
structure BoundingBox where
  minX : ℚ
  minY : ℚ
  maxX : ℚ
  maxY : ℚ
  deriving DecidableEq, Repr

/-- One step of the source loop over a single landmark:
`if (point.x < minX) minX = point.x;` and the three symmetric updates. -/
def updateBBox (bb : BoundingBox) (p : HandLandmark) : BoundingBox where
  minX := if p.x < bb.minX then p.x else bb.minX
  minY := if p.y < bb.minY then p.y else bb.minY
  maxX := if p.x > bb.maxX then p.x else bb.maxX
  maxY := if p.y > bb.maxY then p.y else bb.maxY

/-- Bounding box of all landmarks of all hands, starting from the source
initial values `minX = 1, minY = 1, maxX = 0, maxY = 0` (lines 211-225). -/
def computeBoundingBox (landmarks : List (List HandLandmark)) : BoundingBox :=
  landmarks.foldl (fun bb hand => hand.foldl updateBBox bb) ⟨1, 1, 0, 0⟩

/-- Source constant `MIN_ZOOM = 1`. -/
def MIN_ZOOM : ℚ := 1

/-- Source constant `MAX_ZOOM = 3`. -/
def MAX_ZOOM : ℚ := 3

/-- Raw frame target from a bounding box (lines 227-247):
`targetZoom = clamp(1 / (maxDim * padding), MIN_ZOOM, MAX_ZOOM)` with
`maxDim = max(width, height)`, and `targetPan = (0.5 - centerX,
0.5 - centerY)`. -/
def rawTargetOfBBox (bb : BoundingBox) (padding : ℚ) : FrameTarget :=
  let centerX := (bb.minX + bb.maxX) / 2
  let centerY := (bb.minY + bb.maxY) / 2
  let width := bb.maxX - bb.minX
  let height := bb.maxY - bb.minY
  let maxDim := max width height
  let targetZoom := 1 / (maxDim * padding)
  ⟨min (max targetZoom MIN_ZOOM) MAX_ZOOM, ⟨1 / 2 - centerX, 1 / 2 - centerY⟩⟩

/-- Raw frame target of a detection result with at least one hand. -/
def rawFrameTarget (landmarks : List (List HandLandmark)) (padding : ℚ) :
    FrameTarget :=
  rawTargetOfBBox (computeBoundingBox landmarks) padding

lemma computeBoundingBox_eq_flatten (landmarks : List (List HandLandmark)) :
    computeBoundingBox landmarks =
      landmarks.flatten.foldl updateBBox ⟨1, 1, 0, 0⟩ := by
  rw [computeBoundingBox, List.foldl_flatten]

lemma foldl_updateBBox_minX (pts : List HandLandmark) (bb : BoundingBox) :
    (pts.foldl updateBBox bb).minX =
      pts.foldl (fun m p => if p.x < m then p.x else m) bb.minX := by
  induction pts generalizing bb with
  | nil => rfl
  | cons q rest ih =>
    rw [List.foldl_cons, List.foldl_cons, ih]
    rfl

lemma foldl_updateBBox_minY (pts : List HandLandmark) (bb : BoundingBox) :
    (pts.foldl updateBBox bb).minY =
      pts.foldl (fun m p => if p.y < m then p.y else m) bb.minY := by
  induction pts generalizing bb with
  | nil => rfl
  | cons q rest ih =>
    rw [List.foldl_cons, List.foldl_cons, ih]
    rfl

lemma foldl_updateBBox_maxX (pts : List HandLandmark) (bb : BoundingBox) :
    (pts.foldl updateBBox bb).maxX =
      pts.foldl (fun m p => if p.x > m then p.x else m) bb.maxX := by
  induction pts generalizing bb with
  | nil => rfl
  | cons q rest ih =>
    rw [List.foldl_cons, List.foldl_cons, ih]
    rfl

lemma foldl_updateBBox_maxY (pts : List HandLandmark) (bb : BoundingBox) :
    (pts.foldl updateBBox bb).maxY =
      pts.foldl (fun m p => if p.y > m then p.y else m) bb.maxY := by
  induction pts generalizing bb with
  | nil => rfl
  | cons q rest ih =>
    rw [List.foldl_cons, List.foldl_cons, ih]
    rfl

lemma foldl_minStep_le (f : HandLandmark → ℚ) (pts : List HandLandmark)
    (a : ℚ) :
    pts.foldl (fun m p => if f p < m then f p else m) a ≤ a ∧
    ∀ p ∈ pts, pts.foldl (fun m p => if f p < m then f p else m) a ≤ f p := by
  induction pts generalizing a with
  | nil => simp
  | cons q rest ih =>
    have hstep : (if f q < a then f q else a) ≤ a ∧
        (if f q < a then f q else a) ≤ f q := by
      by_cases hq : f q < a
      · rw [if_pos hq]
        exact ⟨le_of_lt hq, le_refl _⟩
      · rw [if_neg hq]
        exact ⟨le_refl _, le_of_not_lt hq⟩
    obtain ⟨ih1, ih2⟩ := ih (if f q < a then f q else a)
    refine ⟨le_trans ih1 hstep.1, ?_⟩
    intro p hp
    rcases List.mem_cons.mp hp with h | h
    · subst h
      exact le_trans ih1 hstep.2
    · exact ih2 p h

lemma foldl_minStep_attained (f : HandLandmark → ℚ) (pts : List HandLandmark)
    (a : ℚ) :
    pts.foldl (fun m p => if f p < m then f p else m) a = a ∨
    ∃ p ∈ pts, pts.foldl (fun m p => if f p < m then f p else m) a = f p := by
  induction pts generalizing a with
  | nil => left; rfl
  | cons q rest ih =>
    rw [List.foldl_cons]
    rcases ih (if f q < a then f q else a) with h | ⟨p, hp, he⟩
    · by_cases hq : f q < a
      · right
        exact ⟨q, List.mem_cons_self q rest, by rw [h, if_pos hq]⟩
      · left
        rw [h, if_neg hq]
    · right
      exact ⟨p, List.mem_cons_of_mem q hp, he⟩

lemma foldl_maxStep_ge (f : HandLandmark → ℚ) (pts : List HandLandmark)
    (a : ℚ) :
    a ≤ pts.foldl (fun m p => if f p > m then f p else m) a ∧
    ∀ p ∈ pts, f p ≤ pts.foldl (fun m p => if f p > m then f p else m) a := by
  induction pts generalizing a with
  | nil => simp
  | cons q rest ih =>
    have hstep : a ≤ (if f q > a then f q else a) ∧
        f q ≤ (if f q > a then f q else a) := by
      by_cases hq : f q > a
      · rw [if_pos hq]
        exact ⟨le_of_lt hq, le_refl _⟩
      · rw [if_neg hq]
        exact ⟨le_refl _, le_of_not_lt hq⟩
    obtain ⟨ih1, ih2⟩ := ih (if f q > a then f q else a)
    refine ⟨le_trans hstep.1 ih1, ?_⟩
    intro p hp
    rcases List.mem_cons.mp hp with h | h
    · subst h
      exact le_trans hstep.2 ih1
    · exact ih2 p h

lemma foldl_maxStep_attained (f : HandLandmark → ℚ) (pts : List HandLandmark)
    (a : ℚ) :
    pts.foldl (fun m p => if f p > m then f p else m) a = a ∨
    ∃ p ∈ pts, pts.foldl (fun m p => if f p > m then f p else m) a = f p := by
  induction pts generalizing a with
  | nil => left; rfl
  | cons q rest ih =>
    rw [List.foldl_cons]
    rcases ih (if f q > a then f q else a) with h | ⟨p, hp, he⟩
    · by_cases hq : f q > a
      · right
        exact ⟨q, List.mem_cons_self q rest, by rw [h, if_pos hq]⟩
      · left
        rw [h, if_neg hq]
    · right
      exact ⟨p, List.mem_cons_of_mem q hp, he⟩

/-- C4: with at least one hand and all landmark coordinates in `[0,1]`, the
computed box bounds every landmark of every hand and each of its four sides
is attained by some landmark (it is the bounding box of the union of all
landmarks); the raw target is
`zoom = clamp(1 / (max(width, height) * padding), 1, 3)` and
`pan = (0.5 - centerX, 0.5 - centerY)`; and for the bounding box
`{minX: 0.375, minY: 0.375, maxX: 0.625, maxY: 0.625}` with padding 2 the
raw target is zoom 2 with pan `(0, 0)`. -/
theorem rawFrameTarget_correct (landmarks : List (List HandLandmark))
    (padding : ℚ) (hne : landmarks.flatten ≠ [])
    (hbound : ∀ p ∈ landmarks.flatten,
      0 ≤ p.x ∧ p.x ≤ 1 ∧ 0 ≤ p.y ∧ p.y ≤ 1) :
    (∀ p ∈ landmarks.flatten,
      (computeBoundingBox landmarks).minX ≤ p.x ∧
      p.x ≤ (computeBoundingBox landmarks).maxX ∧
      (computeBoundingBox landmarks).minY ≤ p.y ∧
      p.y ≤ (computeBoundingBox landmarks).maxY) ∧
    ((∃ p ∈ landmarks.flatten, p.x = (computeBoundingBox landmarks).minX) ∧
     (∃ p ∈ landmarks.flatten, p.x = (computeBoundingBox landmarks).maxX) ∧
     (∃ p ∈ landmarks.flatten, p.y = (computeBoundingBox landmarks).minY) ∧
     (∃ p ∈ landmarks.flatten, p.y = (computeBoundingBox landmarks).maxY)) ∧
    rawFrameTarget landmarks padding =
      ⟨min (max (1 /
          (max ((computeBoundingBox landmarks).maxX -
              (computeBoundingBox landmarks).minX)
            ((computeBoundingBox landmarks).maxY -
              (computeBoundingBox landmarks).minY) * padding)) 1) 3,
        ⟨1 / 2 - ((computeBoundingBox landmarks).minX +
            (computeBoundingBox landmarks).maxX) / 2,
         1 / 2 - ((computeBoundingBox landmarks).minY +
            (computeBoundingBox landmarks).maxY) / 2⟩⟩ ∧
    rawTargetOfBBox ⟨3/8, 3/8, 5/8, 5/8⟩ 2 = ⟨2, ⟨0, 0⟩⟩ := by
  obtain ⟨p0, hp0⟩ := List.exists_mem_of_ne_nil _ hne
  have hminX := foldl_updateBBox_minX landmarks.flatten ⟨1, 1, 0, 0⟩
  have hminY := foldl_updateBBox_minY landmarks.flatten ⟨1, 1, 0, 0⟩
  have hmaxX := foldl_updateBBox_maxX landmarks.flatten ⟨1, 1, 0, 0⟩
  have hmaxY := foldl_updateBBox_maxY landmarks.flatten ⟨1, 1, 0, 0⟩
  rw [computeBoundingBox_eq_flatten]
  refine ⟨?_, ⟨?_, ?_, ?_, ?_⟩, ?_, ?_⟩
  · intro p hp
    refine ⟨?_, ?_, ?_, ?_⟩
    · rw [hminX]
      exact (foldl_minStep_le (fun p => p.x) landmarks.flatten 1).2 p hp
    · rw [hmaxX]
      exact (foldl_maxStep_ge (fun p => p.x) landmarks.flatten 0).2 p hp
    · rw [hminY]
      exact (foldl_minStep_le (fun p => p.y) landmarks.flatten 1).2 p hp
    · rw [hmaxY]
      exact (foldl_maxStep_ge (fun p => p.y) landmarks.flatten 0).2 p hp
  · rcases foldl_minStep_attained (fun p => p.x) landmarks.flatten 1 with h | h
    · refine ⟨p0, hp0, le_antisymm ?_ ?_⟩
      · exact (hbound p0 hp0).2.1.trans (by rw [hminX, h])
      · rw [hminX]
        exact (foldl_minStep_le (fun p => p.x) landmarks.flatten 1).2 p0 hp0
    · obtain ⟨p, hp, he⟩ := h
      exact ⟨p, hp, by rw [hminX, he]⟩
  · rcases foldl_maxStep_attained (fun p => p.x) landmarks.flatten 0 with h | h
    · refine ⟨p0, hp0, le_antisymm ?_ ?_⟩
      · rw [hmaxX]
        exact (foldl_maxStep_ge (fun p => p.x) landmarks.flatten 0).2 p0 hp0
      · rw [hmaxX, h]
        exact (hbound p0 hp0).1
    · obtain ⟨p, hp, he⟩ := h
      exact ⟨p, hp, by rw [hmaxX, he]⟩
  · rcases foldl_minStep_attained (fun p => p.y) landmarks.flatten 1 with h | h
    · refine ⟨p0, hp0, le_antisymm ?_ ?_⟩
      · exact (hbound p0 hp0).2.2.2.trans (by rw [hminY, h])
      · rw [hminY]
        exact (foldl_minStep_le (fun p => p.y) landmarks.flatten 1).2 p0 hp0
    · obtain ⟨p, hp, he⟩ := h
      exact ⟨p, hp, by rw [hminY, he]⟩
  · rcases foldl_maxStep_attained (fun p => p.y) landmarks.flatten 0 with h | h
    · refine ⟨p0, hp0, le_antisymm ?_ ?_⟩
      · rw [hmaxY]
        exact (foldl_maxStep_ge (fun p => p.y) landmarks.flatten 0).2 p0 hp0
      · rw [hmaxY, h]
        exact (hbound p0 hp0).2.2.1
    · obtain ⟨p, hp, he⟩ := h
      exact ⟨p, hp, by rw [hmaxY, he]⟩
  · rw [rawFrameTarget, computeBoundingBox_eq_flatten]
    rfl
  · norm_num [rawTargetOfBBox, MIN_ZOOM, MAX_ZOOM, min_def, max_def]

/-- Concrete instantiation of `rawFrameTarget_correct` on a single hand whose
two landmarks span the box `{0.375..0.625} x {0.375..0.625}`. -/
theorem rawFrameTarget_correct_witness :
    rawTargetOfBBox ⟨3/8, 3/8, 5/8, 5/8⟩ 2 = ⟨2, ⟨0, 0⟩⟩ :=
  (rawFrameTarget_correct [[⟨3/8, 3/8, 0⟩, ⟨5/8, 5/8, 0⟩]] 2
    (by simp) (by
      intro p hp
      simp only [List.flatten_cons, List.flatten_nil, List.append_nil] at hp
      rcases List.mem_cons.mp hp with h | hp2
      · subst h
        norm_num
      · rcases List.mem_cons.mp hp2 with h | h2
        · subst h
          norm_num
        · simp at h2)).2.2.2

/-! ### Disk buffer service (`DiskBufferService`) -/

/-- Video chunk record stored in IndexedDB (source interface `VideoChunk`):
the WebM blob is embedded as its byte list and the JPEG preview data URL as
a string; `timestamp` is the recording start time in ms. -/
structure VideoChunk where
  id : ℕ
  blob : List ℕ
  preview : String
  timestamp : ℤ
  duration : ℤ
  deriving DecidableEq, Repr

/-- `DiskBufferService.pruneOldChunks(keepCount)` (source lines 159-191),
acting on the timestamp-ascending chunk list that `getAllChunks` returns: a
no-op when the store holds at most `keepCount` chunks; otherwise it deletes
the chunks `chunks.slice(0, chunks.length - keepCount)` by id, leaving the
suffix of the sorted list in the store. -/
def pruneOldChunks (chunks : List VideoChunk) (keepCount : ℕ) :
    List VideoChunk :=
  if chunks.length ≤ keepCount then chunks
  else chunks.drop (chunks.length - keepCount)

/-- The five-chunk store of the end-to-end example: timestamps
1000, 2000, 3000, 4000, 5000. -/
def chunk5Example : List VideoChunk :=
  [⟨1, [], "", 1000, 2000⟩, ⟨2, [], "", 2000, 2000⟩, ⟨3, [], "", 3000, 2000⟩,
   ⟨4, [], "", 4000, 2000⟩, ⟨5, [], "", 5000, 2000⟩]

/-- C5: pruning to `keep` leaves at most `keep` chunks, is a no-op when the
store already holds at most `keep` chunks, empties the store for `keep = 0`,
and retains exactly the suffix of the timestamp-ascending list - which is
still ascending, and every deleted chunk is no newer than every retained
chunk, so the retained chunks are the `keep` most recent in ascending order;
pruning the 1000..5000 example to 3 leaves timestamps 3000, 4000, 5000. -/
theorem pruneOldChunks_correct (chunks : List VideoChunk) (keep : ℕ)
    (hsorted : List.Pairwise (fun a b => a.timestamp ≤ b.timestamp) chunks) :
    (pruneOldChunks chunks keep).length ≤ keep ∧
    (chunks.length ≤ keep → pruneOldChunks chunks keep = chunks) ∧
    (keep = 0 → pruneOldChunks chunks keep = []) ∧
    pruneOldChunks chunks keep = chunks.drop (chunks.length - keep) ∧
    List.Pairwise (fun a b => a.timestamp ≤ b.timestamp)
      (pruneOldChunks chunks keep) ∧
    (∀ a ∈ chunks.take (chunks.length - keep),
      ∀ b ∈ pruneOldChunks chunks keep, a.timestamp ≤ b.timestamp) ∧
    (pruneOldChunks chunk5Example 3).map (fun c => c.timestamp) =
      [3000, 4000, 5000] := by
  have hdrop : pruneOldChunks chunks keep =
      chunks.drop (chunks.length - keep) := by
    unfold pruneOldChunks
    split_ifs with h
    · rw [Nat.sub_eq_zero_of_le h, List.drop_zero]
    · rfl
  have hsplit := List.pairwise_append.mp
    (by rw [List.take_append_drop (chunks.length - keep) chunks]
        exact hsorted)
  refine ⟨?_, ?_, ?_, hdrop, ?_, ?_, ?_⟩
  · rw [hdrop, List.length_drop]
    omega
  · intro h
    unfold pruneOldChunks
    rw [if_pos h]
  · intro h
    subst h
    rw [hdrop, Nat.sub_zero, List.drop_length]
  · rw [hdrop]
    exact List.Pairwise.sublist (List.drop_sublist _ _) hsorted
  · intro a ha b hb
    rw [hdrop] at hb
    exact hsplit.2.2 a ha b hb
  · rfl

/-- Concrete instantiation of `pruneOldChunks_correct` on the five-chunk
example store. -/
theorem pruneOldChunks_correct_witness :
    (pruneOldChunks chunk5Example 3).map (fun c => c.timestamp) =
      [3000, 4000, 5000] :=
  (pruneOldChunks_correct chunk5Example 3 (by
    unfold chunk5Example
    norm_num [List.pairwise_cons])).2.2.2.2.2.2

/-- `DiskBufferService.exportVideo` (source lines 200-212): an empty store
yields an empty blob (not an error); otherwise the result is the
concatenation of all chunk blobs in the capture-time ascending order of
`getAllChunks`. Blobs are embedded as byte lists; the `video/webm` MIME tag
and the progress callback are not modelled. -/
def exportVideo (chunks : List VideoChunk) : List ℕ :=
  if chunks.length = 0 then []
  else (chunks.map (fun c => c.blob)).flatten

/-- C8: exporting an empty store returns the empty, zero-size blob (the
function is total, so no error is raised), and on any store the result is
the concatenation of all chunk blobs in capture order. -/
theorem exportVideo_correct :
    exportVideo [] = [] ∧ (exportVideo []).length = 0 ∧
    ∀ chunks : List VideoChunk,
      exportVideo chunks = (chunks.map (fun c => c.blob)).flatten := by
  refine ⟨rfl, rfl, ?_⟩
  intro chunks
  unfold exportVideo
  split_ifs with h
  · rw [List.length_eq_zero] at h
    subst h
    rfl
  · rfl

/-! ### Replay navigation (`useDiskTimeMachine.ts` lines 342-352, 414-436) -/

/-- `nextChunk` index update (source lines 422-428):
`const next = prev + 1; if (next >= chunksRef.current.length) return 0;
return next;`. JavaScript numbers are embedded as integers since the index
can leave the natural range. -/
def nextChunkIndex (len : ℕ) (prev : ℤ) : ℤ :=
  let next := prev + 1
  if next ≥ (len : ℤ) then 0 else next

/-- `prevChunk` index update (source lines 430-436):
`const next = prev - 1; if (next < 0) return chunksRef.current.length - 1;
return next;`. -/
def prevChunkIndex (len : ℕ) (prev : ℤ) : ℤ :=
  let next := prev - 1
  if next < 0 then (len : ℤ) - 1 else next

/-- Auto-advance update installed as the playback `onended` handler
(source lines 342-352): `const next = prev + 1;
if (next >= chunksRef.current.length) return 0; return next;`. -/
def autoAdvanceIndex (len : ℕ) (prev : ℤ) : ℤ :=
  let next := prev + 1
  if next ≥ (len : ℤ) then 0 else next

/-- C6: on a non-empty chunk list of length `n`, `nextChunk` from index
`n - 1` wraps to 0 and otherwise increments; `prevChunk` from 0 wraps to
`n - 1` and otherwise decrements; on a single-chunk list both yield 0; and
the auto-advance handler computes exactly the same function as
`nextChunk`. -/
theorem chunk_navigation_wraparound (n : ℕ) (i : ℤ) (hn : 1 ≤ n) :
    nextChunkIndex n ((n : ℤ) - 1) = 0 ∧
    (0 ≤ i → i < (n : ℤ) - 1 → nextChunkIndex n i = i + 1) ∧
    prevChunkIndex n 0 = (n : ℤ) - 1 ∧
    (0 < i → i ≤ (n : ℤ) - 1 → prevChunkIndex n i = i - 1) ∧
    (n = 1 → nextChunkIndex n 0 = 0 ∧ prevChunkIndex n 0 = 0) ∧
    (∀ m : ℕ, ∀ j : ℤ, autoAdvanceIndex m j = nextChunkIndex m j) := by
  refine ⟨?_, ?_, ?_, ?_, ?_, fun m j => rfl⟩
  · simp only [nextChunkIndex]
    split_ifs with h <;> omega
  · intro h0 h1
    simp only [nextChunkIndex]
    split_ifs with h <;> omega
  · simp only [prevChunkIndex]
    split_ifs with h <;> omega
  · intro h0 h1
    simp only [prevChunkIndex]
    split_ifs with h <;> omega
  · intro h
    subst h
    constructor
    · simp only [nextChunkIndex]
      split_ifs with h <;> omega
    · simp only [prevChunkIndex]
      split_ifs with h <;> omega

/-- Concrete instantiation of `chunk_navigation_wraparound` on a
single-chunk list. -/
theorem chunk_navigation_wraparound_witness :
    nextChunkIndex 1 ((1 : ℤ) - 1) = 0 :=
  (chunk_navigation_wraparound 1 0 (by norm_num)).1

/-- C10: with a non-empty loaded chunk list both navigation updates keep the
index in `[0, count - 1]`; with an empty list `prevChunk` produces `-1`,
outside the documented range, while `nextChunk` produces 0 - so the range
invariant holds only under the non-emptiness precondition. -/
theorem replay_index_empty_list (n : ℕ) (i : ℤ) (hn : 1 ≤ n)
    (h0 : 0 ≤ i) (hi : i < (n : ℤ)) :
    (0 ≤ nextChunkIndex n i ∧ nextChunkIndex n i < (n : ℤ) ∧
     0 ≤ prevChunkIndex n i ∧ prevChunkIndex n i < (n : ℤ)) ∧
    prevChunkIndex 0 0 = -1 ∧ nextChunkIndex 0 0 = 0 := by
  refine ⟨⟨?_, ?_, ?_, ?_⟩, ?_, ?_⟩ <;>
    · simp only [nextChunkIndex, prevChunkIndex]
      split_ifs with h <;> omega

/-- Concrete instantiation of `replay_index_empty_list` at a single-chunk
list, exposing the empty-list escape values. -/
theorem replay_index_empty_list_witness :
    prevChunkIndex 0 0 = -1 ∧ nextChunkIndex 0 0 = 0 :=
  (replay_index_empty_list 1 0 (by norm_num) (by norm_num) (by norm_num)).2

/-! ### Capture-ready wait (`useDiskTimeMachine.ts` lines 270-289) -/

/-- Recorder wait phase: `waiting` while the `checkReady` interval is
polling, `recording` once `startRecordingChunk` has run. -/
inductive RecorderPhase where
  | waiting
  | recording
  deriving DecidableEq, Repr

/-- Observable recorder state during the capture-ready wait: the phase, the
`isRecording` flag and the `recordingError` message. -/
structure RecorderState where
  phase : RecorderPhase
  isRecording : Bool
  recordingError : Option String
  deriving DecidableEq, Repr

/-- One 100 ms tick of the `checkReady` polling interval (source lines
273-286): when the video reports `readyState >= 3` the interval is cleared,
recording starts and `setIsRecording(true)` runs; otherwise the loop keeps
polling. No branch sets `recordingError`, counts elapsed time, or gives
up. -/
def checkReadyPoll (ready : Bool) (s : RecorderState) : RecorderState :=
  match s.phase with
  | .recording => s
  | .waiting =>
      if ready then ⟨.recording, true, s.recordingError⟩ else s

/-- Recorder state after `n` polls of the `checkReady` interval, where
`readyAt k` tells whether the video reported `readyState >= 3` at the k-th
poll; the wait starts in `waiting` with `isRecording = false` and no
error. -/
def recorderAfterPolls (readyAt : ℕ → Bool) : ℕ → RecorderState
  | 0 => ⟨.waiting, false, none⟩
  | n + 1 => checkReadyPoll (readyAt n) (recorderAfterPolls readyAt n)

/-- C7 (code bug): for a capture source that never reaches
`readyState >= 3`, the recorder is STILL polling after every number of 100
ms ticks - in particular after 100 polls, ten seconds, double the 5 s bound
documented in `docs/DISK_TIME_MACHINE_SPEC.md` - with `isRecording = false`
and no "not ready" error ever surfaced: the code waits indefinitely instead
of stopping after about 5 seconds. -/
theorem checkReady_never_times_out :
    (∀ n : ℕ, recorderAfterPolls (fun _ => false) n =
      ⟨RecorderPhase.waiting, false, none⟩) ∧
    recorderAfterPolls (fun _ => false) 100 =
      ⟨RecorderPhase.waiting, false, none⟩ := by
  have h : ∀ n : ℕ, recorderAfterPolls (fun _ => false) n =
      ⟨RecorderPhase.waiting, false, none⟩ := by
    intro n
    induction n with
    | zero => rfl
    | succ k ih =>
      simp only [recorderAfterPolls, ih]
      rfl
  exact ⟨h, h 100⟩

end MagicMonitor
